import Mathlib

/-!
Verification of the NSCC (Network-aware Sender Congestion Control) core of the
uet-htsim2 repository, together with its CSV trace logger.

The model is a shallow embedding of the per-flow sender state machine described
by the sources under `src/htsim/sim/` (in particular the NSCC deep dive, which
quotes the relevant `uec.cpp` fragments verbatim, and `nscc_trace_logger.h` /
the `NsccTraceLogger` implementation).  Quantities that the simulator keeps as
picosecond times, bytes, and floating-point parameters are embedded as
rationals; sequence numbers are integers.
-/

namespace NSCC

/-- Global NSCC parameter bundle, produced once by `initNsccParams`
(`uec.cpp:86-159`).  All fields are read-only for the lifetime of a flow. -/
structure Params where
  /-- Target queuing delay (picoseconds), the quadrant decision boundary. -/
  target_Qdelay : ℚ
  /-- Decrease aggressiveness, 0.8 in the source (`uec.cpp:129`). -/
  gamma : ℚ
  /-- EWMA weight, 1/80 in the source. -/
  delay_alpha : ℚ
  /-- Proportional-increase gain (`uec.cpp:124`). -/
  alpha : ℚ
  /-- Fair-increase constant `5 * MSS * scaling_factor_a`. -/
  fi : ℚ
  /-- Per-fulfill additive nudge `0.15 * MSS * scaling_factor_a`. -/
  eta : ℚ
  /-- Fast-increase multiplier `0.25 * scaling_factor_a`. -/
  fi_scale : ℚ
  /-- Minimum congestion window, 1 MTU in the source. -/
  min_cwnd : ℚ
  /-- Fulfill byte trigger, 8 MTU in the source. -/
  adjust_bytes_threshold : ℚ
  /-- Fulfill time trigger, one network RTT in the source. -/
  adjust_period_threshold : ℚ
  /-- Quick-Adapt underperformance right-shift (default 3). -/
  qa_gate : ℕ
  /-- NIC link speed in bits per second. -/
  linkspeed : ℚ
  /-- Whether NACK-carried RTT samples refine the base RTT (default on). -/
  update_base_rtt_on_nack : Bool
deriving Repr

/-- Per-flow mutable NSCC state (`uec.cpp` `UecSrc` members). -/
structure State where
  base_rtt : ℚ
  bdp : ℚ
  maxwnd : ℚ
  cwnd : ℚ
  inc_bytes : ℚ
  received_bytes : ℚ
  last_adjust_time : ℚ
  avg_delay : ℚ
  achieved_bytes : ℚ
  bytes_to_ignore : ℚ
  bytes_ignored : ℚ
  last_dec_time : ℚ
  /-- Counter of newly-acked bytes seen while the raw delay stayed below 1 µs;
  drives the fast-increase qualification. -/
  fast_inc_counter : ℚ
  /-- Bytes currently in flight (maintained by the send path). -/
  in_flight : ℚ
  qa_last_eval_time : ℚ
  /-- Quick-Adapt trigger, set on NACK/timeout (`uec.cpp:1375`). -/
  trigger_qa : Bool
deriving Repr

/-- An incoming acknowledgement as seen by the feedback sink: the raw RTT
sample, the echoed ECN bit, the newly acknowledged byte count, and the
arrival time. -/
structure Ack where
  raw_rtt : ℚ
  ecn : Bool
  newly_acked : ℚ
  now : ℚ
deriving Repr

/-- One picosecond-denominated microsecond. -/
def microsec : ℚ := 1000000

/-- Bytes that fill the pipe at the given base RTT (`rtt` in picoseconds):
`_bdp = timeAsUs(rtt) * linkspeed / 8000000` (`uec.cpp:1417`). -/
def bdpOf (p : Params) (rtt : ℚ) : ℚ :=
  rtt * p.linkspeed / 8000000000000

/-- Base-RTT refinement `update_base_rtt` (`uec.cpp:1414-1425`): the base RTT only ever shrinks,
and a shrink recomputes `bdp` and `maxwnd = 1.5 * bdp` in the same call. -/
def update_base_rtt (p : Params) (s : State) (raw_rtt : ℚ) : State :=
  if raw_rtt < s.base_rtt then
    { s with base_rtt := raw_rtt
             bdp := bdpOf p raw_rtt
             maxwnd := 3 / 2 * bdpOf p raw_rtt }
  else s

/-- Sample selection of the three-case EWMA delay filter (`uec.cpp:1402-1423`,
deep dive §4): an extreme outlier (`delay > 5 * base_rtt`) is trusted as-is and
overrides the discount; a high-delay sample without ECN is discounted to
`base_rtt / 4`; everything else feeds the raw delay. -/
def delaySample (p : Params) (s : State) (ecn : Bool) (delay : ℚ) : ℚ :=
  if 5 * s.base_rtt < delay then delay
  else if ecn = false ∧ p.target_Qdelay < delay then s.base_rtt / 4
  else delay

/-- EWMA update of `_avg_delay` with weight `delay_alpha` (`uec.cpp:1402-1423`). -/
def update_delay (p : Params) (s : State) (ecn : Bool) (delay : ℚ) : State :=
  { s with avg_delay :=
      p.delay_alpha * delaySample p s ecn delay + (1 - p.delay_alpha) * s.avg_delay }

/-- Window cut `multiplicative_decrease` (`uec.cpp:1240-1255`): magnitude from the EWMA
`avg_delay`, gated to once per `base_rtt` via `last_dec_time`, cut factor
floored at 1/2. -/
def multiplicative_decrease (p : Params) (s : State) (now : ℚ) : State :=
  if p.target_Qdelay < s.avg_delay then
    if s.base_rtt < now - s.last_dec_time then
      { s with cwnd := s.cwnd *
                 max (1 - p.gamma * (s.avg_delay - p.target_Qdelay) / s.avg_delay) (1 / 2)
               last_dec_time := now }
    else s
  else s

/-- The bounds clamp (`uec.cpp:1137-1143`): raise to `min_cwnd` first, then cap
at `maxwnd`. -/
def clampCwnd (p : Params) (s : State) : State :=
  { s with cwnd := min (max s.cwnd p.min_cwnd) s.maxwnd }

/-- The five window actions of the quadrant machinery. -/
inductive QAction where
  | fair_inc
  | prop_inc
  | mult_dec
  | noop
  | fast_inc
deriving DecidableEq, Repr

/-- The four-quadrant classifier of `updateCwndOnAck_NSCC` (`uec.cpp:1310-1335`,
deep dive lines 184-192), applied to the raw per-packet queuing delay. -/
def quadrant (ecn : Bool) (delay target : ℚ) : QAction :=
  if ecn = false ∧ target ≤ delay then .fair_inc
  else if ecn = false ∧ delay < target then .prop_inc
  else if ecn = true ∧ target ≤ delay then .mult_dec
  else .noop

/-- Fair increase (`uec.cpp:1202-1206`): `_inc_bytes += _fi * newly_acked`. -/
def fair_increase (p : Params) (s : State) (acked : ℚ) : State :=
  { s with inc_bytes := s.inc_bytes + p.fi * acked }

/-- Proportional increase (`uec.cpp:1208-1219`):
`_inc_bytes += _alpha * newly_acked * (_target_Qdelay - delay)`. -/
def proportional_increase (p : Params) (s : State) (acked delay : ℚ) : State :=
  { s with inc_bytes := s.inc_bytes + p.alpha * acked * (p.target_Qdelay - delay) }

/-- Fast increase (`uec.cpp:1221-1238`): `_cwnd += newly_acked * _fi_scale`,
applied directly to the window, bypassing the fulfill accumulator. -/
def fast_increase (p : Params) (s : State) (acked : ℚ) : State :=
  { s with cwnd := s.cwnd + acked * p.fi_scale }

/-- Modelled from the spec: the fast-increase qualification (spec §4.C.1) of
`uec.cpp:1221-1238`, whose surrounding control flow is not under `src/`.  A
counter of newly-acked bytes accumulates while the raw delay stays below 1 µs
and resets on the first non-qualifying ACK; once the counter exceeds `cwnd`,
the proportional-increase quadrant applies fast increase instead. -/
def updateFastCounter (s : State) (delay acked : ℚ) : State :=
  if delay < microsec then
    { s with fast_inc_counter := s.fast_inc_counter + acked }
  else
    { s with fast_inc_counter := 0 }

/-- Whether the fast-increase qualification is met. -/
def fastQualified (s : State) (delay : ℚ) : Prop :=
  delay < microsec ∧ s.cwnd < s.fast_inc_counter

instance (s : State) (delay : ℚ) : Decidable (fastQualified s delay) := by
  unfold fastQualified; infer_instance

/-- Action selection: the quadrant classifier on the raw delay, overlaid with
the fast-increase qualification inside the proportional-increase quadrant. -/
def selectAction (p : Params) (s : State) (ecn : Bool) (delay : ℚ) : QAction :=
  let q := quadrant ecn delay p.target_Qdelay
  if q = .prop_inc ∧ fastQualified s delay then .fast_inc else q

/-- Dispatch of `updateCwndOnAck_NSCC` (`uec.cpp:1310-1335`): apply the window
mutation of the selected action. -/
def applyAction (p : Params) (s : State) (q : QAction) (delay : ℚ) (a : Ack) : State :=
  match q with
  | .fair_inc => fair_increase p s a.newly_acked
  | .prop_inc => proportional_increase p s a.newly_acked delay
  | .mult_dec => multiplicative_decrease p s a.now
  | .noop => s
  | .fast_inc => fast_increase p s a.newly_acked

/-- The quadrant stage of ACK processing: select and apply. -/
def updateCwndOnAck_NSCC (p : Params) (s : State) (ecn : Bool) (delay : ℚ) (a : Ack) : State :=
  applyAction p s (selectAction p s ecn delay) delay a

/-- The fulfill trigger (`uec.cpp:1341`): byte trigger OR time trigger. -/
def fulfillCond (p : Params) (s : State) (now : ℚ) : Prop :=
  p.adjust_bytes_threshold < s.received_bytes ∨
    p.adjust_period_threshold < now - s.last_adjust_time

instance (p : Params) (s : State) (now : ℚ) : Decidable (fulfillCond p s now) := by
  unfold fulfillCond; infer_instance

/-- The fulfill adjustment body (`uec.cpp:1260`, `uec.cpp:1269`):
`cwnd += inc_bytes / cwnd + eta`, then reset the accumulator and triggers. -/
def fulfill_adjustment (p : Params) (s : State) (now : ℚ) : State :=
  { s with cwnd := s.cwnd + s.inc_bytes / s.cwnd + p.eta
           inc_bytes := 0
           received_bytes := 0
           last_adjust_time := now }

/-- The fulfill check performed during ACK processing. -/
def fulfillCheck (p : Params) (s : State) (now : ℚ) : State :=
  if fulfillCond p s now then fulfill_adjustment p s now else s

/-- Per-ACK bookkeeping: `_received_bytes` and `_achieved_bytes` accumulate the
newly acknowledged bytes (`uec.cpp:916`), and the fast-increase counter is
updated from the raw delay. -/
def ackBookkeep (s : State) (delay : ℚ) (a : Ack) : State :=
  updateFastCounter
    { s with received_bytes := s.received_bytes + a.newly_acked
             achieved_bytes := s.achieved_bytes + a.newly_acked }
    delay a.newly_acked

/-- Whether the stale-feedback mask of a Quick-Adapt reset is active. -/
def maskActive (s : State) : Prop := s.bytes_ignored < s.bytes_to_ignore

instance (s : State) : Decidable (maskActive s) := by
  unfold maskActive; infer_instance

/-- The raw per-packet queuing delay an ACK contributes: `raw_rtt - base_rtt`
(`uec.cpp:973`) after the base RTT has been refined by this sample. -/
def rawDelayOf (p : Params) (s : State) (a : Ack) : ℚ :=
  a.raw_rtt - (update_base_rtt p s a.raw_rtt).base_rtt

/-- The full per-ACK pipeline of the feedback sink (spec §4.G, deep dive §4
`processAck` timeline): if the stale-feedback mask is active the ACK only feeds
the mask and the achieved-bytes counter (`uec.cpp:916,918`, `uec.cpp:1157-1158`);
otherwise base-RTT refinement, EWMA update, bookkeeping, quadrant dispatch on
the raw delay, the fulfill check, and the bounds clamp run in order. -/
def processAck (p : Params) (s : State) (a : Ack) : State :=
  if maskActive s then
    { s with bytes_ignored := s.bytes_ignored + a.newly_acked
             achieved_bytes := s.achieved_bytes + a.newly_acked }
  else
    let s1 := update_base_rtt p s a.raw_rtt
    let d := a.raw_rtt - s1.base_rtt
    let s2 := update_delay p s1 a.ecn d
    let s3 := ackBookkeep s2 d a
    let s4 := updateCwndOnAck_NSCC p s3 a.ecn d a
    let s5 := fulfillCheck p s4 a.now
    clampCwnd p s5

/-- Sequential processing of a stream of ACKs. -/
def processAcks (p : Params) (s : State) (l : List Ack) : State :=
  l.foldl (processAck p) s

/-- The Quick-Adapt fire condition (`uec.cpp:1145-1200`):
`(trigger OR loss OR raw_delay > 4 * target_Qdelay) AND
(achieved_bytes < maxwnd >> qa_gate)`. -/
def qaFireCond (p : Params) (s : State) (trigger loss : Bool) (raw_delay : ℚ) : Prop :=
  (trigger = true ∨ loss = true ∨ 4 * p.target_Qdelay < raw_delay) ∧
    s.achieved_bytes < s.maxwnd / 2 ^ p.qa_gate

instance (p : Params) (s : State) (trigger loss : Bool) (raw_delay : ℚ) :
    Decidable (qaFireCond p s trigger loss raw_delay) := by
  unfold qaFireCond; infer_instance

/-- The Quick-Adapt evaluation (`uec.cpp:1145-1200`).  On fire the window is
reset to `max(achieved_bytes, min_cwnd)`, the in-flight bytes become the
stale-feedback mask (`uec.cpp:1185-1186`), and the interval timer restarts.
Either way the evaluation closes the current measurement window: the
achieved-bytes counter and the NACK trigger reset. -/
def quick_adapt (p : Params) (s : State) (trigger loss : Bool) (raw_delay now : ℚ) : State :=
  if qaFireCond p s trigger loss raw_delay then
    { s with cwnd := max s.achieved_bytes p.min_cwnd
             bytes_to_ignore := s.in_flight
             bytes_ignored := 0
             qa_last_eval_time := now
             achieved_bytes := 0
             trigger_qa := false }
  else
    { s with qa_last_eval_time := now
             achieved_bytes := 0
             trigger_qa := false }

/-- Events delivered to the per-flow feedback sink (spec §4.G): ACKs, NACKs,
probe ACKs, timeouts, and the periodic Quick-Adapt evaluation. -/
inductive Event where
  | ack (a : Ack)
  | nack (raw_rtt now : ℚ)
  | probe (a : Ack)
  | timeout (now : ℚ)
  | qaEval (trigger loss : Bool) (raw_delay now : ℚ)
deriving Repr

/-- NACK handling (spec §4.G): optionally refine the base RTT from the
NACK-carried sample (`uec.cpp:1593-1594`, feature-flagged), set the
Quick-Adapt trigger (`uec.cpp:1375`), and re-apply the bounds clamp. -/
def processNack (p : Params) (s : State) (raw_rtt : ℚ) : State :=
  let s1 := if p.update_base_rtt_on_nack then update_base_rtt p s raw_rtt else s
  clampCwnd p { s1 with trigger_qa := true }

/-- Single entry point dispatching every handler; each handler that mutates
`cwnd` ends in the bounds clamp (`uec.cpp:1137-1143`). -/
def handleEvent (p : Params) (s : State) (e : Event) : State :=
  match e with
  | .ack a => processAck p s a
  | .nack raw_rtt _ => processNack p s raw_rtt
  | .probe _ => s
  | .timeout _ => { s with trigger_qa := true }
  | .qaEval trigger loss raw_delay now =>
      clampCwnd p (quick_adapt p s trigger loss raw_delay now)

/-! ### SLEEK loss recovery (`uec.cpp:1433-1497`) -/

/-- Constant `loss_retx_factor = 1.5` (`uec.cpp:1435`). -/
def loss_retx_factor : ℚ := 3 / 2

/-- Constant `min_retx_config = 5` (`uec.cpp:1436`). -/
def min_retx_cfg : ℚ := 5

/-- SLEEK per-flow state (spec §4.F). -/
structure SleekState where
  out_of_order_count : ℚ
  loss_recovery_mode : Bool
  recovery_seqno : ℤ
  rtx_queue : List ℤ
  highest_sent : ℤ
  cumulative_ack : ℤ
deriving Repr

/-- The cwnd-scaled reorder threshold (`uec.cpp:1435-1436`):
`max(min_retx_cfg * avg_pkt_size, min(loss_retx_factor * cwnd, maxwnd))`. -/
def sleekThreshold (cwnd maxwnd avg_pkt_size : ℚ) : ℚ :=
  max (min_retx_cfg * avg_pkt_size) (min (loss_retx_factor * cwnd) maxwnd)

/-- The unacknowledged sequence numbers below the recovery point, used to
populate the retransmission queue on entry (spec §4.F). -/
def unackedBelow (cum_ack seqno : ℤ) : List ℤ :=
  (List.range (seqno - cum_ack).toNat).map (fun i => cum_ack + i)

/-- The recovery exit test (`uec.cpp:1450-1455`): the mode is left exactly
when the cumulative ACK has advanced past the recovery point. -/
def sleekExit (st : SleekState) : SleekState :=
  if st.loss_recovery_mode = true ∧ st.recovery_seqno ≤ st.cumulative_ack then
    { st with loss_recovery_mode := false }
  else st

/-- The threshold-gated recovery entry (`uec.cpp:1460-1466`): when the
out-of-order count reaches the cwnd-scaled threshold, the flow is not already
in recovery and the retransmission queue is empty, recovery is entered with
`recovery_seqno = highest_sent` and the queue is populated with every
unacknowledged segment below it (spec §4.F). -/
def sleekEntry (cwnd maxwnd avg_pkt_size : ℚ) (st : SleekState) : SleekState :=
  if sleekThreshold cwnd maxwnd avg_pkt_size ≤ st.out_of_order_count ∧
      st.loss_recovery_mode = false ∧ st.rtx_queue = [] then
    { st with loss_recovery_mode := true
              recovery_seqno := st.highest_sent
              rtx_queue := unackedBelow st.cumulative_ack st.highest_sent }
  else st

/-- One SLEEK check, run as part of ACK processing: the exit test runs first,
then the entry test.  Returns the new state together with whether the exit
fired. -/
def sleekCheck (cwnd maxwnd avg_pkt_size : ℚ) (st : SleekState) : SleekState × Bool :=
  (sleekEntry cwnd maxwnd avg_pkt_size (sleekExit st),
   decide (st.loss_recovery_mode = true ∧ st.recovery_seqno ≤ st.cumulative_ack))

/-! ### The NSCC trace logger (`nscc_trace_logger.h`, `NsccTraceLogger`) -/

/-- A row of the CSV trace.  `sample` rows are emitted once per fulfill
adjustment; `qaEvent` rows are the separate record type for Quick-Adapt
firings; `header` is the column header written on construction. -/
inductive TraceRecord where
  | header
  | sample (time flow_id cwnd in_flight bdp maxwnd avg_delay raw_delay target
      base_rtt : ℚ) (ecn : Bool) (quadrant : ℕ)
      (inc_fair inc_prop inc_fast inc_eta dec_multi dec_quick : ℚ)
  | qaEvent (time flow_id cwnd_before cwnd_after achieved_bytes in_flight : ℚ)
deriving DecidableEq, Repr

/-- The logger: the open flag of the underlying stream and the rows written. -/
structure Logger where
  isOpen : Bool
  rows : List TraceRecord
deriving DecidableEq, Repr

/-- The `NsccTraceLogger` constructor: opening the stream either succeeds (the
header row is written) or fails, in which case the failure is only reported
and the logger is left closed — no exception escapes. -/
def mkLogger (canOpen : Bool) : Logger :=
  if canOpen then { isOpen := true, rows := [.header] }
  else { isOpen := false, rows := [] }

/-- Method `NsccTraceLogger::logSample`: a no-op on a closed logger, otherwise appends
one `sample` row carrying exactly the passed fields. -/
def logSample (L : Logger) (time flow_id cwnd in_flight bdp maxwnd avg_delay
    raw_delay target base_rtt : ℚ) (ecn : Bool) (quadrant : ℕ)
    (inc_fair inc_prop inc_fast inc_eta dec_multi dec_quick : ℚ) : Logger :=
  if L.isOpen then
    { L with rows := L.rows ++
        [.sample time flow_id cwnd in_flight bdp maxwnd avg_delay raw_delay
          target base_rtt ecn quadrant inc_fair inc_prop inc_fast inc_eta
          dec_multi dec_quick] }
  else L

/-- Method `NsccTraceLogger::logQAEvent`: a no-op on a closed logger, otherwise
appends one `qaEvent` row. -/
def logQAEvent (L : Logger) (time flow_id cwnd_before cwnd_after achieved_bytes
    in_flight : ℚ) : Logger :=
  if L.isOpen then
    { L with rows := L.rows ++
        [.qaEvent time flow_id cwnd_before cwnd_after achieved_bytes in_flight] }
  else L

/-- Modelled from the spec: the quadrant byte of a trace row (the `UecSrc`
call sites in `uec.cpp` are not under `src/`; the encoding of the four
quadrants and of QA rows is documented in `nscc_trace_logger.h:17-22`, and the
fast-increase code follows the trace-sink contract of the spec). -/
def quadrantCode : QAction → ℕ
  | .fair_inc => 0
  | .prop_inc => 1
  | .mult_dec => 2
  | .noop => 3
  | .fast_inc => 4

/-- The quadrant byte `logQAEvent` writes for a Quick-Adapt row
(`quadrant=5 means QA event`). -/
def qaEventCode : ℕ := 5

/-- Per-action byte accumulators carried by a trace row. -/
structure ActionBytes where
  inc_fair : ℚ
  inc_prop : ℚ
  inc_fast : ℚ
  inc_eta : ℚ
  dec_multi : ℚ
  dec_quick : ℚ
deriving Repr

/-- Modelled from the spec: the trace-sink contract (spec §6) — one `sample`
row per fulfill adjustment, with the current window state of the flow, both delay
timescales, the quadrant byte of the ACK that triggered the adjustment, and
the per-action byte accumulators.  The emitting call site lives in `uec.cpp`,
which is not under `src/`. -/
def traceOnFulfill (p : Params) (s : State) (now flow_id raw_delay : ℚ)
    (ecn : Bool) (q : QAction) (acc : ActionBytes) (L : Logger) : Logger :=
  if fulfillCond p s now then
    logSample L now flow_id s.cwnd s.in_flight s.bdp s.maxwnd s.avg_delay
      raw_delay p.target_Qdelay s.base_rtt ecn (quadrantCode q)
      acc.inc_fair acc.inc_prop acc.inc_fast acc.inc_eta acc.dec_multi acc.dec_quick
  else L

/-- Modelled from the spec: the Quick-Adapt trace hook — each QA firing emits
one record of the separate `qaEvent` type (spec §6; the call site lives in
`uec.cpp`, which is not under `src/`). -/
def traceOnQA (p : Params) (s : State) (trigger loss : Bool)
    (raw_delay now flow_id : ℚ) (L : Logger) : Logger :=
  if qaFireCond p s trigger loss raw_delay then
    logQAEvent L now flow_id s.cwnd (max s.achieved_bytes p.min_cwnd)
      s.achieved_bytes s.in_flight
  else L

/-! ### Structural lemmas about the per-ACK pipeline -/

theorem update_base_rtt_base (p : Params) (s : State) (raw : ℚ) :
    (update_base_rtt p s raw).base_rtt = min s.base_rtt raw := by
  unfold update_base_rtt
  split
  · next h => exact (min_eq_right (le_of_lt h)).symm
  · next h => exact (min_eq_left (le_of_not_lt h)).symm

theorem update_base_rtt_untouched (p : Params) (s : State) (raw : ℚ) :
    (update_base_rtt p s raw).cwnd = s.cwnd ∧
    (update_base_rtt p s raw).avg_delay = s.avg_delay ∧
    (update_base_rtt p s raw).bytes_to_ignore = s.bytes_to_ignore ∧
    (update_base_rtt p s raw).bytes_ignored = s.bytes_ignored := by
  unfold update_base_rtt
  split <;> exact ⟨rfl, rfl, rfl, rfl⟩

theorem update_delay_untouched (p : Params) (s : State) (ecn : Bool) (d : ℚ) :
    (update_delay p s ecn d).base_rtt = s.base_rtt ∧
    (update_delay p s ecn d).maxwnd = s.maxwnd ∧
    (update_delay p s ecn d).cwnd = s.cwnd ∧
    (update_delay p s ecn d).bytes_to_ignore = s.bytes_to_ignore ∧
    (update_delay p s ecn d).bytes_ignored = s.bytes_ignored := by
  exact ⟨rfl, rfl, rfl, rfl, rfl⟩

theorem ackBookkeep_untouched (s : State) (d : ℚ) (a : Ack) :
    (ackBookkeep s d a).base_rtt = s.base_rtt ∧
    (ackBookkeep s d a).maxwnd = s.maxwnd ∧
    (ackBookkeep s d a).cwnd = s.cwnd ∧
    (ackBookkeep s d a).avg_delay = s.avg_delay ∧
    (ackBookkeep s d a).bytes_to_ignore = s.bytes_to_ignore ∧
    (ackBookkeep s d a).bytes_ignored = s.bytes_ignored := by
  unfold ackBookkeep updateFastCounter
  split <;> exact ⟨rfl, rfl, rfl, rfl, rfl, rfl⟩

theorem multiplicative_decrease_untouched (p : Params) (s : State) (now : ℚ) :
    (multiplicative_decrease p s now).base_rtt = s.base_rtt ∧
    (multiplicative_decrease p s now).maxwnd = s.maxwnd ∧
    (multiplicative_decrease p s now).avg_delay = s.avg_delay ∧
    (multiplicative_decrease p s now).bytes_to_ignore = s.bytes_to_ignore ∧
    (multiplicative_decrease p s now).bytes_ignored = s.bytes_ignored := by
  unfold multiplicative_decrease
  split
  · split <;> exact ⟨rfl, rfl, rfl, rfl, rfl⟩
  · exact ⟨rfl, rfl, rfl, rfl, rfl⟩

theorem applyAction_untouched (p : Params) (s : State) (q : QAction) (d : ℚ) (a : Ack) :
    (applyAction p s q d a).base_rtt = s.base_rtt ∧
    (applyAction p s q d a).maxwnd = s.maxwnd ∧
    (applyAction p s q d a).avg_delay = s.avg_delay ∧
    (applyAction p s q d a).bytes_to_ignore = s.bytes_to_ignore ∧
    (applyAction p s q d a).bytes_ignored = s.bytes_ignored := by
  cases q
  · exact ⟨rfl, rfl, rfl, rfl, rfl⟩
  · exact ⟨rfl, rfl, rfl, rfl, rfl⟩
  · exact multiplicative_decrease_untouched p s a.now
  · exact ⟨rfl, rfl, rfl, rfl, rfl⟩
  · exact ⟨rfl, rfl, rfl, rfl, rfl⟩

theorem fulfillCheck_untouched (p : Params) (s : State) (now : ℚ) :
    (fulfillCheck p s now).base_rtt = s.base_rtt ∧
    (fulfillCheck p s now).maxwnd = s.maxwnd ∧
    (fulfillCheck p s now).avg_delay = s.avg_delay ∧
    (fulfillCheck p s now).bytes_to_ignore = s.bytes_to_ignore ∧
    (fulfillCheck p s now).bytes_ignored = s.bytes_ignored := by
  unfold fulfillCheck fulfill_adjustment
  split <;> exact ⟨rfl, rfl, rfl, rfl, rfl⟩

theorem clampCwnd_untouched (p : Params) (s : State) :
    (clampCwnd p s).base_rtt = s.base_rtt ∧
    (clampCwnd p s).maxwnd = s.maxwnd ∧
    (clampCwnd p s).avg_delay = s.avg_delay ∧
    (clampCwnd p s).bytes_to_ignore = s.bytes_to_ignore ∧
    (clampCwnd p s).bytes_ignored = s.bytes_ignored := by
  exact ⟨rfl, rfl, rfl, rfl, rfl⟩

theorem processAck_masked (p : Params) (s : State) (a : Ack) (h : maskActive s) :
    processAck p s a =
      { s with bytes_ignored := s.bytes_ignored + a.newly_acked
               achieved_bytes := s.achieved_bytes + a.newly_acked } := by
  unfold processAck
  rw [if_pos h]

theorem processAck_unmasked (p : Params) (s : State) (a : Ack) (h : ¬ maskActive s) :
    processAck p s a =
      clampCwnd p (fulfillCheck p
        (updateCwndOnAck_NSCC p
          (ackBookkeep
            (update_delay p (update_base_rtt p s a.raw_rtt) a.ecn (rawDelayOf p s a))
            (rawDelayOf p s a) a)
          a.ecn (rawDelayOf p s a) a)
        a.now) := by
  unfold processAck rawDelayOf
  rw [if_neg h]

/-- On an unmasked ACK the base RTT becomes the minimum of the previous base
RTT and the raw sample, and the mask counters are untouched. -/
theorem processAck_fields (p : Params) (s : State) (a : Ack) (h : ¬ maskActive s) :
    (processAck p s a).base_rtt = min s.base_rtt a.raw_rtt ∧
    (processAck p s a).bytes_to_ignore = s.bytes_to_ignore ∧
    (processAck p s a).bytes_ignored = s.bytes_ignored := by
  rw [processAck_unmasked p s a h]
  generalize hb : update_base_rtt p s a.raw_rtt = sb
  obtain ⟨c1, c2, c3, c4, c5⟩ := clampCwnd_untouched p
    (fulfillCheck p (updateCwndOnAck_NSCC p (ackBookkeep
      (update_delay p sb a.ecn (rawDelayOf p s a)) (rawDelayOf p s a) a)
      a.ecn (rawDelayOf p s a) a) a.now)
  obtain ⟨f1, f2, f3, f4, f5⟩ := fulfillCheck_untouched p
    (updateCwndOnAck_NSCC p (ackBookkeep
      (update_delay p sb a.ecn (rawDelayOf p s a)) (rawDelayOf p s a) a)
      a.ecn (rawDelayOf p s a) a) a.now
  obtain ⟨q1, q2, q3, q4, q5⟩ := applyAction_untouched p
    (ackBookkeep (update_delay p sb a.ecn (rawDelayOf p s a)) (rawDelayOf p s a) a)
    (selectAction p (ackBookkeep (update_delay p sb a.ecn (rawDelayOf p s a))
      (rawDelayOf p s a) a) a.ecn (rawDelayOf p s a)) (rawDelayOf p s a) a
  obtain ⟨k1, k2, k3, k4, k5, k6⟩ := ackBookkeep_untouched
    (update_delay p sb a.ecn (rawDelayOf p s a)) (rawDelayOf p s a) a
  obtain ⟨u1, u2, u3, u4, u5⟩ := update_delay_untouched p sb a.ecn (rawDelayOf p s a)
  obtain ⟨w1, w2, w3, w4⟩ := update_base_rtt_untouched p s a.raw_rtt
  refine ⟨?_, ?_, ?_⟩
  · rw [c1, f1]
    show (applyAction p _ _ _ _).base_rtt = _
    rw [q1, k1, u1, ← hb, update_base_rtt_base]
  · rw [c4, f4]
    show (applyAction p _ _ _ _).bytes_to_ignore = _
    rw [q4, k5, u4, ← hb]
    exact w3
  · rw [c5, f5]
    show (applyAction p _ _ _ _).bytes_ignored = _
    rw [q5, k6, u5, ← hb]
    exact w4

/-! ### Concrete fixtures used by the witness theorems.
The values correspond to the 100 Gbps / 12 µs reference network of deep dive
§7 with trimming enabled (target = 9 µs), MTU = MSS = 4096 bytes. -/

/-- Reference-network parameter bundle. -/
def refParams : Params :=
  { target_Qdelay := 9000000
    gamma := 4 / 5
    delay_alpha := 1 / 80
    alpha := 2731
    fi := 20480
    eta := 614
    fi_scale := 1 / 4
    min_cwnd := 4096
    adjust_bytes_threshold := 32768
    adjust_period_threshold := 12000000
    qa_gate := 3
    linkspeed := 100000000000
    update_base_rtt_on_nack := true }

/-- A freshly initialized flow on the reference network. -/
def initState : State :=
  { base_rtt := 12000000
    bdp := 150000
    maxwnd := 225000
    cwnd := 100000
    inc_bytes := 0
    received_bytes := 0
    last_adjust_time := 0
    avg_delay := 0
    achieved_bytes := 0
    bytes_to_ignore := 0
    bytes_ignored := 0
    last_dec_time := 0
    fast_inc_counter := 0
    in_flight := 0
    qa_last_eval_time := 0
    trigger_qa := false }

/-- A clean full-MTU ACK at 1 ms with the unloaded RTT. -/
def ack0 : Ack := { raw_rtt := 12000000, ecn := false, newly_acked := 4096, now := 1000000000 }

/-! ### C1 — the four-quadrant classifier -/

/-- C1: for every ACK processed outside the stale-feedback mask, the quadrant
classifier, applied to the raw per-packet delay (the per-ACK pipeline feeds it
`rawDelayOf`, not the EWMA `avg_delay`), selects exactly proportional increase
on (no ECN, delay below target), fair increase on (no ECN, delay at or above
target), NOOP — no window change — on (ECN, delay below target), and
multiplicative decrease on (ECN, delay at or above target). -/
theorem quadrant_classifier_table (p : Params) (s : State) (a : Ack) (ecn : Bool) (d : ℚ)
    (hmask : ¬ maskActive s) :
    (ecn = false ∧ d < p.target_Qdelay → quadrant ecn d p.target_Qdelay = .prop_inc) ∧
    (ecn = false ∧ p.target_Qdelay ≤ d → quadrant ecn d p.target_Qdelay = .fair_inc) ∧
    (ecn = true ∧ d < p.target_Qdelay →
      quadrant ecn d p.target_Qdelay = .noop ∧ applyAction p s .noop d a = s) ∧
    (ecn = true ∧ p.target_Qdelay ≤ d → quadrant ecn d p.target_Qdelay = .mult_dec) ∧
    (¬ fastQualified s d → selectAction p s ecn d = quadrant ecn d p.target_Qdelay) ∧
    processAck p s a =
      clampCwnd p (fulfillCheck p
        (updateCwndOnAck_NSCC p
          (ackBookkeep (update_delay p (update_base_rtt p s a.raw_rtt) a.ecn (rawDelayOf p s a))
            (rawDelayOf p s a) a)
          a.ecn (rawDelayOf p s a) a)
        a.now) := by
  refine ⟨?_, ?_, ?_, ?_, ?_, ?_⟩
  · rintro ⟨he, hd⟩
    subst he
    simp [quadrant, hd, hd.not_le]
  · rintro ⟨he, hd⟩
    subst he
    simp [quadrant, hd]
  · rintro ⟨he, hd⟩
    subst he
    exact ⟨by simp [quadrant, hd.not_le], rfl⟩
  · rintro ⟨he, hd⟩
    subst he
    simp [quadrant, hd]
  · intro hnf
    simp [selectAction, hnf]
  · exact processAck_unmasked p s a hmask

/-- Witness for C1 at a concrete input: the empty-network quadrant and the
congested quadrant, with the mask hypothesis discharged on `initState`. -/
theorem quadrant_classifier_table_witness :
    quadrant false 0 refParams.target_Qdelay = .prop_inc ∧
    quadrant true refParams.target_Qdelay refParams.target_Qdelay = .mult_dec :=
  ⟨(quadrant_classifier_table refParams initState ack0 false 0
      (by norm_num [maskActive, initState])).1 ⟨rfl, by norm_num [refParams]⟩,
   (quadrant_classifier_table refParams initState ack0 true refParams.target_Qdelay
      (by norm_num [maskActive, initState])).2.2.2.1 ⟨rfl, le_refl _⟩⟩

/-! ### C2 — multiplicative decrease -/

/-- C2: the decrease magnitude is computed from the EWMA `avg_delay`: it is
skipped when `avg_delay ≤ target_Qdelay` and when less than `base_rtt` has
elapsed since the last decrease; when it fires, the window is multiplied by
`max(1 - gamma * (d - t) / d, 1/2)` and `last_dec_time` advances to `now`, so
a single decrease never removes more than half the window and any firing is at
least `base_rtt` after the previous one. -/
theorem multiplicative_decrease_spec (p : Params) (s : State) (now : ℚ) :
    (s.avg_delay ≤ p.target_Qdelay → multiplicative_decrease p s now = s) ∧
    (now - s.last_dec_time ≤ s.base_rtt → multiplicative_decrease p s now = s) ∧
    (p.target_Qdelay < s.avg_delay → s.base_rtt < now - s.last_dec_time →
      (multiplicative_decrease p s now).cwnd =
        s.cwnd * max (1 - p.gamma * (s.avg_delay - p.target_Qdelay) / s.avg_delay) (1 / 2) ∧
      (multiplicative_decrease p s now).last_dec_time = now ∧
      s.base_rtt ≤ now - s.last_dec_time) ∧
    (0 ≤ s.cwnd → s.cwnd / 2 ≤ (multiplicative_decrease p s now).cwnd) := by
  refine ⟨?_, ?_, ?_, ?_⟩
  · intro h
    unfold multiplicative_decrease
    rw [if_neg (not_lt.mpr h)]
  · intro h
    unfold multiplicative_decrease
    split
    · rw [if_neg (not_lt.mpr h)]
    · rfl
  · intro h1 h2
    unfold multiplicative_decrease
    rw [if_pos h1, if_pos h2]
    exact ⟨rfl, rfl, le_of_lt h2⟩
  · intro hc
    unfold multiplicative_decrease
    split
    · split
      · show s.cwnd / 2 ≤ s.cwnd * max _ _
        calc s.cwnd / 2 = s.cwnd * (1 / 2) := by ring
          _ ≤ s.cwnd * max (1 - p.gamma * (s.avg_delay - p.target_Qdelay) / s.avg_delay)
                (1 / 2) := mul_le_mul_of_nonneg_left (le_max_right _ _) hc
      · linarith
    · linarith

/-- Scenario S2 of the spec: window at `maxwnd`, EWMA delay at twice the
target. -/
def sMD : State := { initState with cwnd := 225000, avg_delay := 18000000 }

/-- Witness for C2: the S2 decrease computes `225 KB × 0.6 = 135 KB`. -/
theorem multiplicative_decrease_spec_witness :
    (multiplicative_decrease refParams sMD 13000000).cwnd = 135000 := by
  have h := (multiplicative_decrease_spec refParams sMD 13000000).2.2.1
    (by norm_num [sMD, initState, refParams]) (by norm_num [sMD, initState])
  rw [h.1]
  norm_num [sMD, initState, refParams]

/-! ### C3 — the fulfill adjustment -/

/-- C3: the fulfill adjustment fires exactly when
`received_bytes > adjust_bytes_threshold` or
`now - last_adjust_time > adjust_period_threshold`; it sets `cwnd` to
`cwnd + inc_bytes / cwnd + eta` and resets `inc_bytes`, `received_bytes` and
`last_adjust_time`; with `inc_bytes = 0` the window changes by exactly `+eta`,
and by the clamp of `+eta` under the bound clamp. -/
theorem fulfill_adjustment_spec (p : Params) (s : State) (now : ℚ) :
    (fulfillCond p s now → fulfillCheck p s now = fulfill_adjustment p s now) ∧
    (¬ fulfillCond p s now → fulfillCheck p s now = s) ∧
    (fulfillCond p s now ↔
      (p.adjust_bytes_threshold < s.received_bytes ∨
        p.adjust_period_threshold < now - s.last_adjust_time)) ∧
    ((fulfill_adjustment p s now).cwnd = s.cwnd + s.inc_bytes / s.cwnd + p.eta ∧
     (fulfill_adjustment p s now).inc_bytes = 0 ∧
     (fulfill_adjustment p s now).received_bytes = 0 ∧
     (fulfill_adjustment p s now).last_adjust_time = now) ∧
    (s.inc_bytes = 0 →
      (fulfill_adjustment p s now).cwnd = s.cwnd + p.eta ∧
      (clampCwnd p (fulfill_adjustment p s now)).cwnd =
        min (max (s.cwnd + p.eta) p.min_cwnd) s.maxwnd) := by
  refine ⟨?_, ?_, Iff.rfl, ⟨rfl, rfl, rfl, rfl⟩, ?_⟩
  · intro h
    unfold fulfillCheck
    rw [if_pos h]
  · intro h
    unfold fulfillCheck
    rw [if_neg h]
  · intro h
    constructor
    · show s.cwnd + s.inc_bytes / s.cwnd + p.eta = s.cwnd + p.eta
      rw [h, zero_div, add_zero]
    · show min (max (s.cwnd + s.inc_bytes / s.cwnd + p.eta) p.min_cwnd) s.maxwnd = _
      rw [h, zero_div, add_zero]

/-- A flow whose received-bytes counter has crossed the 8-MTU trigger with an
empty increase accumulator. -/
def sFul : State := { initState with received_bytes := 40000 }

/-- Witness for C3: with `inc_bytes = 0` the fulfill adjustment fires on the
byte trigger and moves the window by exactly `eta = 614`. -/
theorem fulfill_adjustment_spec_witness :
    (fulfillCheck refParams sFul 5).cwnd = 100614 := by
  have h := fulfill_adjustment_spec refParams sFul 5
  rw [h.1 (Or.inl (by norm_num [sFul, initState, refParams])), (h.2.2.2.2 rfl).1]
  norm_num [sFul, initState, refParams]

/-! ### C7 — the three-case EWMA filter -/

/-- C7: on every non-probe ACK that reaches the delay estimator, the EWMA
`avg_delay` is updated with weight `delay_alpha`, with the sample chosen by the
three-case rule: a no-ECN sample above the target is discounted to
`base_rtt / 4`; a sample above `5 * base_rtt` overrides the discount and feeds
the raw delay; any other sample feeds the raw delay.  The per-ACK pipeline
applies exactly this filter to the raw delay of an unmasked ACK. -/
theorem update_delay_three_cases (p : Params) (s : State) (ecn : Bool) (d : ℚ) (a : Ack) :
    (ecn = false → p.target_Qdelay < d → d ≤ 5 * s.base_rtt →
      (update_delay p s ecn d).avg_delay =
        p.delay_alpha * (s.base_rtt / 4) + (1 - p.delay_alpha) * s.avg_delay) ∧
    (5 * s.base_rtt < d →
      (update_delay p s ecn d).avg_delay =
        p.delay_alpha * d + (1 - p.delay_alpha) * s.avg_delay) ∧
    (¬ (ecn = false ∧ p.target_Qdelay < d) → d ≤ 5 * s.base_rtt →
      (update_delay p s ecn d).avg_delay =
        p.delay_alpha * d + (1 - p.delay_alpha) * s.avg_delay) ∧
    (¬ maskActive s →
      (processAck p s a).avg_delay =
        (update_delay p (update_base_rtt p s a.raw_rtt) a.ecn (rawDelayOf p s a)).avg_delay) := by
  refine ⟨?_, ?_, ?_, ?_⟩
  · intro he hd h5
    unfold update_delay delaySample
    rw [if_neg (not_lt.mpr h5), if_pos ⟨he, hd⟩]
  · intro h5
    unfold update_delay delaySample
    rw [if_pos h5]
  · intro hn h5
    unfold update_delay delaySample
    rw [if_neg (not_lt.mpr h5), if_neg hn]
  · intro h
    rw [processAck_unmasked p s a h,
      (clampCwnd_untouched p _).2.2.1, (fulfillCheck_untouched p _ _).2.2.1]
    show (applyAction p _ _ _ _).avg_delay = _
    rw [(applyAction_untouched p _ _ _ _).2.2.1, (ackBookkeep_untouched _ _ _).2.2.2.1]

/-- Witness for C7: a 10 µs no-ECN sample on the reference network is
discounted to `base_rtt / 4 = 3 µs`, entering the EWMA with weight 1/80. -/
theorem update_delay_three_cases_witness :
    (update_delay refParams initState false 10000000).avg_delay = 37500 := by
  have h := (update_delay_three_cases refParams initState false 10000000 ack0).1
    rfl (by norm_num [refParams]) (by norm_num [initState])
  rw [h]
  norm_num [refParams, initState]

/-! ### C10 — the trace logger on an unopenable file -/

/-- C10: constructing the logger on a path that cannot be opened yields a
logger that merely reports failure — it is closed and wrote nothing (and the
constructor is a total function, so no exception escapes) — and on any closed
logger both `logSample` and `logQAEvent` return it unchanged, writing nothing
and modifying no state. -/
theorem trace_logger_closed (L : Logger) (h : L.isOpen = false) :
    (mkLogger false).isOpen = false ∧
    (mkLogger false).rows = [] ∧
    (∀ time flow cwnd infl bdp maxw avg raw targ base ecn quad f1 f2 f3 f4 f5 f6,
      logSample L time flow cwnd infl bdp maxw avg raw targ base ecn quad
        f1 f2 f3 f4 f5 f6 = L) ∧
    (∀ time flow b c d e, logQAEvent L time flow b c d e = L) := by
  refine ⟨rfl, rfl, ?_, ?_⟩
  · intros
    unfold logSample
    rw [h]
    rfl
  · intros
    unfold logQAEvent
    rw [h]
    rfl

/-- Witness for C10: both logging calls on the closed logger are no-ops. -/
theorem trace_logger_closed_witness :
    logSample (mkLogger false) 0 1 2 3 4 5 6 7 8 9 true 2 0 0 0 0 0 0 = mkLogger false ∧
    logQAEvent (mkLogger false) 0 1 2 3 4 5 = mkLogger false :=
  ⟨(trace_logger_closed (mkLogger false) rfl).2.2.1 0 1 2 3 4 5 6 7 8 9 true 2 0 0 0 0 0 0,
   (trace_logger_closed (mkLogger false) rfl).2.2.2 0 1 2 3 4 5⟩

/-! ### C4 — the cwnd bounds invariant across all handlers -/

theorem clampCwnd_bounds (p : Params) (s : State) (h : p.min_cwnd ≤ s.maxwnd) :
    p.min_cwnd ≤ (clampCwnd p s).cwnd ∧ (clampCwnd p s).cwnd ≤ (clampCwnd p s).maxwnd := by
  constructor
  · show p.min_cwnd ≤ min (max s.cwnd p.min_cwnd) s.maxwnd
    exact le_min (le_max_right _ _) h
  · show min (max s.cwnd p.min_cwnd) s.maxwnd ≤ s.maxwnd
    exact min_le_right _ _

/-- C4: every handler — ACK, NACK, probe, timer, Quick Adapt — re-establishes
`min_cwnd ≤ cwnd ≤ maxwnd` from any pre-state satisfying it, because every
mutation of `cwnd` is followed by the bounds clamp (the hypothesis `hmw` says
the clamp bounds are consistent in the post state, which can only differ from
the pre state when the base RTT shrank). -/
theorem handler_cwnd_bounds (p : Params) (s : State) (e : Event)
    (hlo : p.min_cwnd ≤ s.cwnd) (hhi : s.cwnd ≤ s.maxwnd)
    (hmw : p.min_cwnd ≤ (handleEvent p s e).maxwnd) :
    p.min_cwnd ≤ (handleEvent p s e).cwnd ∧
    (handleEvent p s e).cwnd ≤ (handleEvent p s e).maxwnd := by
  cases e with
  | ack a =>
    by_cases h : maskActive s
    · have he : handleEvent p s (.ack a) = processAck p s a := rfl
      rw [he, processAck_masked p s a h]
      exact ⟨hlo, hhi⟩
    · have he : handleEvent p s (.ack a) = processAck p s a := rfl
      rw [he, processAck_unmasked p s a h] at hmw ⊢
      exact clampCwnd_bounds p _ hmw
  | nack raw now =>
    exact clampCwnd_bounds p _ hmw
  | probe a =>
    exact ⟨hlo, hhi⟩
  | timeout now =>
    exact ⟨hlo, hhi⟩
  | qaEval trigger loss raw_delay now =>
    exact clampCwnd_bounds p _ hmw

/-- Witness for C4: the timeout handler on the freshly initialized reference
flow keeps the window inside its bounds. -/
theorem handler_cwnd_bounds_witness :
    refParams.min_cwnd ≤ (handleEvent refParams initState (.timeout 5)).cwnd ∧
    (handleEvent refParams initState (.timeout 5)).cwnd ≤
      (handleEvent refParams initState (.timeout 5)).maxwnd :=
  handler_cwnd_bounds refParams initState (.timeout 5)
    (by norm_num [refParams, initState]) (by norm_num [initState])
    (by norm_num [handleEvent, refParams, initState])

/-! ### C5 — Quick Adapt and the stale-feedback mask -/

/-- C5: Quick Adapt fires exactly on
`(trigger ∨ loss ∨ raw_delay > 4 * target_Qdelay) ∧
(achieved_bytes < maxwnd >> qa_gate)`; on fire it resets the window to
`max(achieved_bytes, min_cwnd)`, arms the stale-feedback mask with the bytes
currently in flight (`bytes_ignored = 0`), and restarts the interval timer;
and while the mask has not drained, an ACK only feeds the mask and byte
counters and performs no quadrant-driven window mutation. -/
theorem quick_adapt_spec (p : Params) (s : State) (trigger loss : Bool)
    (raw_delay now : ℚ) (a : Ack) :
    (qaFireCond p s trigger loss raw_delay ↔
      ((trigger = true ∨ loss = true ∨ 4 * p.target_Qdelay < raw_delay) ∧
        s.achieved_bytes < s.maxwnd / 2 ^ p.qa_gate)) ∧
    (qaFireCond p s trigger loss raw_delay →
      (quick_adapt p s trigger loss raw_delay now).cwnd = max s.achieved_bytes p.min_cwnd ∧
      (quick_adapt p s trigger loss raw_delay now).bytes_to_ignore = s.in_flight ∧
      (quick_adapt p s trigger loss raw_delay now).bytes_ignored = 0 ∧
      (quick_adapt p s trigger loss raw_delay now).qa_last_eval_time = now) ∧
    (¬ qaFireCond p s trigger loss raw_delay →
      (quick_adapt p s trigger loss raw_delay now).cwnd = s.cwnd ∧
      (quick_adapt p s trigger loss raw_delay now).bytes_to_ignore = s.bytes_to_ignore ∧
      (quick_adapt p s trigger loss raw_delay now).bytes_ignored = s.bytes_ignored) ∧
    (maskActive s →
      processAck p s a =
        { s with bytes_ignored := s.bytes_ignored + a.newly_acked
                 achieved_bytes := s.achieved_bytes + a.newly_acked }) := by
  refine ⟨Iff.rfl, ?_, ?_, ?_⟩
  · intro h
    unfold quick_adapt
    rw [if_pos h]
    exact ⟨rfl, rfl, rfl, rfl⟩
  · intro h
    unfold quick_adapt
    rw [if_neg h]
    exact ⟨rfl, rfl, rfl⟩
  · exact processAck_masked p s a

/-- Scenario S4 of the spec: a flow at `maxwnd` that achieved only 1 KB in the
last evaluation window, with 200 KB still in flight, hit by a QA trigger. -/
def sQA : State :=
  { initState with cwnd := 225000, achieved_bytes := 1024, in_flight := 200000 }

/-- Witness for C5: the S4 firing collapses the window to
`max(1 KB, min_cwnd) = 1 MTU` and arms the mask with the in-flight bytes;
the subsequent masked ACK leaves the window untouched. -/
theorem quick_adapt_spec_witness :
    (quick_adapt refParams sQA true false 0 7).cwnd = 4096 ∧
    (quick_adapt refParams sQA true false 0 7).bytes_to_ignore = 200000 ∧
    (processAck refParams { sQA with bytes_to_ignore := 200000 } ack0).cwnd = sQA.cwnd := by
  have h := quick_adapt_spec refParams sQA true false 0 7 ack0
  have hfire : qaFireCond refParams sQA true false 0 :=
    ⟨Or.inl rfl, by norm_num [sQA, initState, refParams]⟩
  have hm := (quick_adapt_spec refParams { sQA with bytes_to_ignore := 200000 }
    true false 0 7 ack0).2.2.2 (by norm_num [maskActive, sQA, initState])
  refine ⟨?_, ?_, ?_⟩
  · rw [(h.2.1 hfire).1]
    norm_num [sQA, initState, refParams]
  · exact (h.2.1 hfire).2.1
  · rw [hm]

/-! ### C6 — base RTT as a running minimum -/

theorem foldl_min_le_init (l : List ℚ) (b : ℚ) : l.foldl min b ≤ b := by
  induction l generalizing b with
  | nil => exact le_refl b
  | cons x xs ih => exact le_trans (ih (min b x)) (min_le_left b x)

theorem foldl_min_le_mem (l : List ℚ) (b x : ℚ) (hx : x ∈ l) : l.foldl min b ≤ x := by
  induction l generalizing b with
  | nil => cases hx
  | cons y ys ih =>
    rcases List.mem_cons.mp hx with h | h
    · subst h
      exact le_trans (foldl_min_le_init ys (min b x)) (min_le_right b x)
    · exact ih (min b y) h

theorem foldl_min_attained (l : List ℚ) (b : ℚ) :
    l.foldl min b = b ∨ l.foldl min b ∈ l := by
  induction l generalizing b with
  | nil => exact Or.inl rfl
  | cons y ys ih =>
    rcases ih (min b y) with h | h
    · show ys.foldl min (min b y) = b ∨ ys.foldl min (min b y) ∈ y :: ys
      rcases le_total b y with hby | hyb
      · left
        rw [h, min_eq_left hby]
      · right
        rw [h, min_eq_right hyb]
        exact List.mem_cons_self y ys
    · exact Or.inr (List.mem_cons_of_mem y h)

theorem processAcks_base_rtt (p : Params) (s : State) (l : List Ack)
    (h : ¬ maskActive s) :
    (processAcks p s l).base_rtt = (l.map Ack.raw_rtt).foldl min s.base_rtt := by
  induction l generalizing s with
  | nil => rfl
  | cons a as ih =>
    have h1 := processAck_fields p s a h
    have hm : ¬ maskActive (processAck p s a) := by
      unfold maskActive at h ⊢
      rw [h1.2.1, h1.2.2]
      exact h
    show (processAcks p (processAck p s a) as).base_rtt = _
    rw [ih (processAck p s a) hm, h1.1]
    rfl

/-- C6: over any stream of (unmasked) ACKs, the resulting base RTT is the
minimum of its initial value and of every observed raw RTT — hence monotone
non-increasing — and whenever a sample shrinks the base RTT, `bdp` and
`maxwnd = 1.5 * bdp` are recomputed from it in the same call, and the clamp at
the end of the same ACK handler keeps `cwnd` at or below the new ceiling. -/
theorem base_rtt_running_min (p : Params) (s : State) (l : List Ack) (a : Ack)
    (h : ¬ maskActive s) :
    (processAcks p s l).base_rtt = (l.map Ack.raw_rtt).foldl min s.base_rtt ∧
    (processAcks p s l).base_rtt ≤ s.base_rtt ∧
    (∀ x ∈ l, (processAcks p s l).base_rtt ≤ x.raw_rtt) ∧
    ((processAcks p s l).base_rtt = s.base_rtt ∨
      ∃ x ∈ l, (processAcks p s l).base_rtt = x.raw_rtt) ∧
    (processAck p s a).base_rtt ≤ s.base_rtt ∧
    (∀ raw, raw < s.base_rtt →
      (update_base_rtt p s raw).base_rtt = raw ∧
      (update_base_rtt p s raw).bdp = bdpOf p raw ∧
      (update_base_rtt p s raw).maxwnd = 3 / 2 * bdpOf p raw) ∧
    (processAck p s a).cwnd ≤ (processAck p s a).maxwnd := by
  have hfold := processAcks_base_rtt p s l h
  refine ⟨hfold, ?_, ?_, ?_, ?_, ?_, ?_⟩
  · rw [hfold]
    exact foldl_min_le_init _ _
  · intro x hx
    rw [hfold]
    exact foldl_min_le_mem _ _ _ (List.mem_map_of_mem Ack.raw_rtt hx)
  · rw [hfold]
    rcases foldl_min_attained (l.map Ack.raw_rtt) s.base_rtt with hc | hc
    · exact Or.inl hc
    · obtain ⟨x, hxl, hxe⟩ := List.mem_map.mp hc
      exact Or.inr ⟨x, hxl, hxe.symm⟩
  · rw [(processAck_fields p s a h).1]
    exact min_le_left _ _
  · intro raw hraw
    unfold update_base_rtt
    rw [if_pos hraw]
    exact ⟨rfl, rfl, rfl⟩
  · rw [processAck_unmasked p s a h]
    show min _ _ ≤ _
    exact min_le_right _ _

/-- Scenario S6 of the spec: the topology estimate is 12 µs and the first real
ACK measures 9.3 µs. -/
def ackRefine : Ack :=
  { raw_rtt := 9300000, ecn := false, newly_acked := 4096, now := 10000000 }

/-- Witness for C6: after the S6 ACK the base RTT is 9.3 µs. -/
theorem base_rtt_running_min_witness :
    (processAcks refParams initState [ackRefine]).base_rtt = 9300000 := by
  have h := (base_rtt_running_min refParams initState [ackRefine] ack0
    (by norm_num [maskActive, initState])).1
  rw [h]
  norm_num [initState, ackRefine]

/-! ### C8 — SLEEK entry, exit and the recovery invariant -/

/-- C8: loss recovery is entered exactly when the out-of-order count reaches
`max(min_retx_cfg * avg_pkt_size, min(loss_retx_factor * cwnd, maxwnd))` (with
`loss_retx_factor = 3/2` and `min_retx_cfg = 5`), the flow is not already in
recovery, and the retransmission queue is empty; entry records
`recovery_seqno = highest_sent`; while in recovery with unacknowledged data,
`cumulative_ack < recovery_seqno` is preserved; and the mode exits exactly
when `cumulative_ack ≥ recovery_seqno`. -/
theorem sleekCheck_spec (cwnd maxwnd avg_pkt_size : ℚ) (st : SleekState) :
    (sleekThreshold cwnd maxwnd avg_pkt_size =
      max (5 * avg_pkt_size) (min (3 / 2 * cwnd) maxwnd)) ∧
    (st.loss_recovery_mode = false →
      (((sleekCheck cwnd maxwnd avg_pkt_size st).1.loss_recovery_mode = true) ↔
        (sleekThreshold cwnd maxwnd avg_pkt_size ≤ st.out_of_order_count ∧
          st.rtx_queue = []))) ∧
    (st.loss_recovery_mode = false →
      sleekThreshold cwnd maxwnd avg_pkt_size ≤ st.out_of_order_count →
      st.rtx_queue = [] →
      (sleekCheck cwnd maxwnd avg_pkt_size st).1.recovery_seqno = st.highest_sent) ∧
    (st.loss_recovery_mode = true → st.cumulative_ack < st.recovery_seqno →
      (sleekCheck cwnd maxwnd avg_pkt_size st).1 = st) ∧
    (st.cumulative_ack < st.highest_sent →
      (st.loss_recovery_mode = true → st.cumulative_ack < st.recovery_seqno) →
      (sleekCheck cwnd maxwnd avg_pkt_size st).1.loss_recovery_mode = true →
      st.cumulative_ack < (sleekCheck cwnd maxwnd avg_pkt_size st).1.recovery_seqno) ∧
    ((sleekCheck cwnd maxwnd avg_pkt_size st).2 = true ↔
      (st.loss_recovery_mode = true ∧ st.recovery_seqno ≤ st.cumulative_ack)) := by
  refine ⟨rfl, ?_, ?_, ?_, ?_, ?_⟩
  · intro hmode
    have hexit : sleekExit st = st := by
      unfold sleekExit
      rw [if_neg]
      rintro ⟨hcontra, -⟩
      rw [hmode] at hcontra
      cases hcontra
    show (sleekEntry cwnd maxwnd avg_pkt_size (sleekExit st)).loss_recovery_mode = true ↔ _
    rw [hexit]
    unfold sleekEntry
    by_cases hc : sleekThreshold cwnd maxwnd avg_pkt_size ≤ st.out_of_order_count ∧
        st.loss_recovery_mode = false ∧ st.rtx_queue = []
    · rw [if_pos hc]
      exact ⟨fun _ => ⟨hc.1, hc.2.2⟩, fun _ => rfl⟩
    · rw [if_neg hc]
      constructor
      · intro hx
        rw [hmode] at hx
        cases hx
      · rintro ⟨h1, h2⟩
        exact absurd ⟨h1, hmode, h2⟩ hc
  · intro hmode hth hq
    have hexit : sleekExit st = st := by
      unfold sleekExit
      rw [if_neg]
      rintro ⟨hcontra, -⟩
      rw [hmode] at hcontra
      cases hcontra
    show (sleekEntry cwnd maxwnd avg_pkt_size (sleekExit st)).recovery_seqno = _
    rw [hexit]
    unfold sleekEntry
    rw [if_pos ⟨hth, hmode, hq⟩]
  · intro hmode hlt
    have hexit : sleekExit st = st := by
      unfold sleekExit
      rw [if_neg]
      rintro ⟨-, hcontra⟩
      exact absurd hlt (not_lt.mpr hcontra)
    show sleekEntry cwnd maxwnd avg_pkt_size (sleekExit st) = st
    rw [hexit]
    unfold sleekEntry
    rw [if_neg]
    rintro ⟨-, hcontra, -⟩
    rw [hmode] at hcontra
    cases hcontra
  · intro hdata hinv
    show (sleekEntry cwnd maxwnd avg_pkt_size (sleekExit st)).loss_recovery_mode = true →
      st.cumulative_ack < (sleekEntry cwnd maxwnd avg_pkt_size (sleekExit st)).recovery_seqno
    unfold sleekEntry
    by_cases hc : sleekThreshold cwnd maxwnd avg_pkt_size ≤ (sleekExit st).out_of_order_count ∧
        (sleekExit st).loss_recovery_mode = false ∧ (sleekExit st).rtx_queue = []
    · rw [if_pos hc]
      intro _
      show st.cumulative_ack < (sleekExit st).highest_sent
      unfold sleekExit
      split
      · exact hdata
      · exact hdata
    · rw [if_neg hc]
      unfold sleekExit
      split
      · intro hx
        cases hx
      · next hn =>
        intro hmode
        have := hinv hmode
        exact this
  · unfold sleekCheck
    show decide _ = true ↔ _
    exact decide_eq_true_iff

/-- A SLEEK state in recovery with the cumulative ACK about to cross the
recovery point. -/
def stRec : SleekState :=
  { out_of_order_count := 0
    loss_recovery_mode := true
    recovery_seqno := 100
    rtx_queue := [50]
    highest_sent := 120
    cumulative_ack := 100 }

/-- Witness for C8: once the cumulative ACK reaches the recovery point (100),
the exit fires. -/
theorem sleekCheck_spec_witness :
    (sleekCheck 600000 900000 4096 stRec).2 = true :=
  (sleekCheck_spec 600000 900000 4096 stRec).2.2.2.2.2.mpr
    ⟨rfl, by norm_num [stRec]⟩

/-! ### C9 — the trace sink -/

/-- C9: each fulfill adjustment on an open logger emits exactly one sample
record carrying time, flow id, cwnd, in-flight, bdp, maxwnd, avg_delay,
raw_delay, target, base_rtt, the ecn bit, the quadrant byte encoded as
fair_inc=0, prop_inc=1, mult_dec=2, noop=3, fast_inc=4 (with 5 reserved for
QA rows), and the per-action byte accumulators; a Quick-Adapt firing emits one
record of the separate `qaEvent` type. -/
theorem trace_sink_spec (p : Params) (s : State) (now flow raw : ℚ) (ecn : Bool)
    (q : QAction) (acc : ActionBytes) (L : Logger) (trigger loss : Bool)
    (rd nowq flowq : ℚ) :
    (quadrantCode .fair_inc = 0 ∧ quadrantCode .prop_inc = 1 ∧
     quadrantCode .mult_dec = 2 ∧ quadrantCode .noop = 3 ∧
     quadrantCode .fast_inc = 4 ∧ qaEventCode = 5) ∧
    (fulfillCond p s now → L.isOpen = true →
      traceOnFulfill p s now flow raw ecn q acc L =
        { L with rows := L.rows ++
            [.sample now flow s.cwnd s.in_flight s.bdp s.maxwnd s.avg_delay raw
              p.target_Qdelay s.base_rtt ecn (quadrantCode q) acc.inc_fair
              acc.inc_prop acc.inc_fast acc.inc_eta acc.dec_multi acc.dec_quick] }) ∧
    (¬ fulfillCond p s now → traceOnFulfill p s now flow raw ecn q acc L = L) ∧
    (qaFireCond p s trigger loss rd → L.isOpen = true →
      traceOnQA p s trigger loss rd nowq flowq L =
        { L with rows := L.rows ++
            [.qaEvent nowq flowq s.cwnd (max s.achieved_bytes p.min_cwnd)
              s.achieved_bytes s.in_flight] }) := by
  refine ⟨⟨rfl, rfl, rfl, rfl, rfl, rfl⟩, ?_, ?_, ?_⟩
  · intro hf hopen
    unfold traceOnFulfill logSample
    rw [if_pos hf, hopen]
    rfl
  · intro hf
    unfold traceOnFulfill
    rw [if_neg hf]
  · intro hq hopen
    unfold traceOnQA logQAEvent
    rw [if_pos hq, hopen]
    rfl

/-- Zeroed per-action byte accumulators. -/
def acc0 : ActionBytes :=
  { inc_fair := 0, inc_prop := 0, inc_fast := 0, inc_eta := 0
    dec_multi := 0, dec_quick := 0 }

/-- Witness for C9: a fulfill adjustment on a freshly opened logger appends
exactly one row after the header. -/
theorem trace_sink_spec_witness :
    (traceOnFulfill refParams sFul 5 1 0 false .prop_inc acc0 (mkLogger true)).rows.length = 2 := by
  have h := (trace_sink_spec refParams sFul 5 1 0 false .prop_inc acc0 (mkLogger true)
    false false 0 0 0).2.1 (Or.inl (by norm_num [sFul, initState, refParams])) rfl
  rw [h]
  rfl

end NSCC
